import Mathlib

/-!
Shallow embedding of the ad3552r DAC driver core (drivers/dac/ad3552r/ad3552r.c)
and proofs about its register framing, CRC-protected transfer engine,
SPI configuration cache, calibration arithmetic, reset poll loop and
burst-write packing.

Machine integers are embedded as Nat (unsigned) or Int (signed), with explicit
reductions modulo 2^w where the C code relies on fixed-width wraparound.
C's truncating signed division and remainder are Int.tdiv and Int.tmod.
-/

/- Protocol constants defined in ad3552r.c itself. -/

def AD3552R_MAX_REG_SIZE : Nat := 3

def AD3552R_READ_BIT : Nat := 0x80

def AD3552R_ADDR_MASK : Nat := 0x7F

def AD3552R_CRC_POLY : Nat := 0x07

def AD3552R_CRC_SEED : Nat := 0xA5

def AD3552R_SECONDARY_REGION_ADDR : Nat := 0x28

def AD3552R_DEFAULT_CONFIG_B_VALUE : Nat := 0x8

def AD3552R_GAIN_SCALE : Int := 1000

/-- Modelled from the spec: the register addresses referenced by ad3552r.c come
from the header ad3552r.h, which is not part of the provided sources.  The
values below follow the device register map the spec describes in section 3
(a 7-bit address space split at a secondary region, with 16-bit-precision and
24-bit-precision register banks and three write-only LDAC/select registers in
each bank).  The secondary region starts at 0x28, consistent with
AD3552R_SECONDARY_REGION_ADDR defined in ad3552r.c. -/
def AD3552R_REG_ADDR_HW_LDAC_16B : Nat := 0x28

/-- Modelled from the spec: see AD3552R_REG_ADDR_HW_LDAC_16B. -/
def AD3552R_REG_ADDR_CH_DAC_16B (ch : Nat) : Nat := 0x2C - (1 - ch) * 2

/-- Modelled from the spec: see AD3552R_REG_ADDR_HW_LDAC_16B. -/
def AD3552R_REG_ADDR_CH_SELECT_16B : Nat := 0x2F

/-- Modelled from the spec: see AD3552R_REG_ADDR_HW_LDAC_16B. -/
def AD3552R_REG_ADDR_SW_LDAC_16B : Nat := 0x31

/-- Modelled from the spec: see AD3552R_REG_ADDR_HW_LDAC_16B. -/
def AD3552R_REG_ADDR_CH_INPUT_16B (ch : Nat) : Nat := 0x35 - (1 - ch) * 2

/-- Modelled from the spec: see AD3552R_REG_ADDR_HW_LDAC_16B. -/
def AD3552R_REG_ADDR_HW_LDAC_24B : Nat := 0x37

/-- Modelled from the spec: see AD3552R_REG_ADDR_HW_LDAC_16B. -/
def AD3552R_REG_ADDR_CH_DAC_24B (ch : Nat) : Nat := 0x3D - (1 - ch) * 3

/-- Modelled from the spec: see AD3552R_REG_ADDR_HW_LDAC_16B. -/
def AD3552R_REG_ADDR_CH_SELECT_24B : Nat := 0x43

/-- Modelled from the spec: see AD3552R_REG_ADDR_HW_LDAC_16B. -/
def AD3552R_REG_ADDR_SW_LDAC_24B : Nat := 0x45

/-- Modelled from the spec: see AD3552R_REG_ADDR_HW_LDAC_16B.  One past the
last register address; the transfer engine wraps chunk addresses modulo this
value ("wrapped modulo the total register address space"). -/
def AD3552R_REG_ADDR_MAX : Nat := 0x4C

/-- Modelled from the spec: 12-bit left-aligned DAC code mask from ad3552r.h.
The spec states that in fast (16-bit register) mode a channel code is
"truncated to 12 bits (its low nibble cleared)", which together with the
nibble masks written out literally in ad3552r_write_all_channels fixes the
value 0xFFF0. -/
def AD3552R_MASK_DAC_12B : Nat := 0xFFF0

/-- Modelled from the spec: the "interface not ready" bit of
INTERFACE_CONFIG_B status polled by ad3552r_reset, bit 7 of the register. -/
def AD3552R_MASK_INTERFACE_NOT_READY : Nat := 0x80

/-- Modelled from the spec: mask selecting both DAC channels. -/
def AD3552R_MASK_ALL_CH : Nat := 0x3

/- Linux-style errno values used by the driver (via no-os/error.h, not under
the provided sources; the spec names the same error kinds). -/

def EINVAL : Int := 22

def EIO_errno : Int := 5

def EBADMSG : Int := 74

def ENODEV : Int := 19

/-- Embedding of _ad3552r_reg_len from ad3552r.c: register width in bytes as a
pure function of the address.  Six explicit case labels return 1; otherwise
the width is decided by the two bank boundaries. -/
def _ad3552r_reg_len (addr : Nat) : Nat :=
  if addr = AD3552R_REG_ADDR_HW_LDAC_16B ∨
     addr = AD3552R_REG_ADDR_CH_SELECT_16B ∨
     addr = AD3552R_REG_ADDR_SW_LDAC_16B ∨
     addr = AD3552R_REG_ADDR_HW_LDAC_24B ∨
     addr = AD3552R_REG_ADDR_CH_SELECT_24B ∨
     addr = AD3552R_REG_ADDR_SW_LDAC_24B then 1
  else if AD3552R_REG_ADDR_HW_LDAC_24B < addr then 3
  else if AD3552R_REG_ADDR_HW_LDAC_16B < addr then 2
  else 1

/-- The six explicit one-byte case labels of the switch in _ad3552r_reg_len,
in source order. -/
def ad3552r_one_byte_special_addrs : List Nat :=
  [AD3552R_REG_ADDR_HW_LDAC_16B, AD3552R_REG_ADDR_CH_SELECT_16B,
   AD3552R_REG_ADDR_SW_LDAC_16B, AD3552R_REG_ADDR_HW_LDAC_24B,
   AD3552R_REG_ADDR_CH_SELECT_24B, AD3552R_REG_ADDR_SW_LDAC_24B]

theorem _ad3552r_reg_len_pos (addr : Nat) : 1 ≤ _ad3552r_reg_len addr := by
  unfold _ad3552r_reg_len
  split
  · exact Nat.le_refl 1
  · split
    · omega
    · split <;> omega

theorem _ad3552r_reg_len_le (addr : Nat) : _ad3552r_reg_len addr ≤ 3 := by
  unfold _ad3552r_reg_len
  split
  · omega
  · split
    · omega
    · split <;> omega

/-- Modelled from the spec: one shift step of the CRC-8 used by the driver
(the crc8 helper of no-os/util is not under the provided sources; the spec
fixes an 8-bit CRC with polynomial 0x07, most-significant bit first). -/
def crc8_shift (r : Nat) : Nat :=
  if 0x80 ≤ r then (r * 2) % 256 ^^^ AD3552R_CRC_POLY else (r * 2) % 256

/-- Modelled from the spec: the MSB-first CRC-8 table entry for one byte, i.e.
eight polynomial shift steps. -/
def crc8_byte (r : Nat) : Nat := crc8_shift^[8] r

/-- Modelled from the spec: crc8 over a byte list with an explicit seed,
as computed by the table-driven crc8 of no-os/util with the MSB table for
polynomial 0x07. -/
def crc8 (data : List Nat) (crc : Nat) : Nat :=
  data.foldl (fun c b => crc8_byte ((c ^^^ b) % 256)) crc

/-- Big-endian 16-bit store (put_unaligned_be16): the two bytes written. -/
def put_unaligned_be16 (v : Nat) : List Nat := [v / 256 % 256, v % 256]

/-- Big-endian 16-bit load (get_unaligned_be16) from the first two bytes. -/
def get_unaligned_be16 (b : List Nat) : Nat := b.getD 0 0 * 256 + b.getD 1 0

/-- Embedding of the buffer preparation in ad3552r_write_reg: the reg_len
data bytes handed to the transfer for a register write of value val. -/
def ad3552r_write_reg_buf (addr val : Nat) : List Nat :=
  let reg_len := _ad3552r_reg_len addr
  let v := if reg_len = 2 then val &&& AD3552R_MASK_DAC_12B else val
  if reg_len = 1 then [v % 256]
  else put_unaligned_be16 v ++ List.replicate (reg_len - 2) 0

/-- Embedding of the value decoding in ad3552r_read_reg: the 16-bit value
reconstructed from the reg_len bytes the transfer received. -/
def ad3552r_read_reg_val (addr : Nat) (buf : List Nat) : Nat :=
  if _ad3552r_reg_len addr = 1 then buf.getD 0 0 else get_unaligned_be16 buf

/-- Embedding of ad3552r_write_reg over an abstract faithful register store
mapping each address to the byte buffer last written there.  Mirrors the
guard rejecting secondary-region accesses while address ascension is on. -/
def ad3552r_write_reg (addr_asc : Bool) (store : Nat → List Nat)
    (addr val : Nat) : Except Int (Nat → List Nat) :=
  if _ad3552r_reg_len addr = 0 ∨
     (AD3552R_SECONDARY_REGION_ADDR ≤ addr ∧ addr_asc = true) then
    Except.error (-EINVAL)
  else
    Except.ok (fun a => if a = addr then ad3552r_write_reg_buf addr val
                        else store a)

/-- Embedding of ad3552r_read_reg over the same abstract register store. -/
def ad3552r_read_reg (addr_asc : Bool) (store : Nat → List Nat)
    (addr : Nat) : Except Int Nat :=
  if _ad3552r_reg_len addr = 0 ∨
     (AD3552R_SECONDARY_REGION_ADDR ≤ addr ∧ addr_asc = true) then
    Except.error (-EINVAL)
  else
    Except.ok (ad3552r_read_reg_val addr (store addr))

/-- Write a register then read it back through a faithful store. -/
def ad3552r_read_after_write (addr_asc : Bool) (addr val : Nat) :
    Except Int Nat :=
  match ad3552r_write_reg addr_asc (fun _ => []) addr val with
  | Except.ok st => ad3552r_read_reg addr_asc st addr
  | Except.error e => Except.error e

/-- Truncating-division rounding helper DIV_ROUND_CLOSEST from no-os/util.h,
as the C expression (x + y / 2) / y with C (truncating) division. -/
def DIV_ROUND_CLOSEST (x y : Int) : Int := Int.tdiv (x + Int.tdiv y 2) y

/-- Derived calibration constants of one channel. -/
structure CalibResult where
  scale_int : Int
  scale_dec : Int
  offset_int : Int
  offset_dec : Int
deriving Repr, DecidableEq

/-- Embedding of the scale/offset derivation at the end of
ad3552r_calc_gain_and_offset, from the channel range (v_min, v_max) in
millivolts.  C's int64 division and remainder are truncating. -/
def ad3552r_calc_gain_and_offset (v_min v_max : Int) : CalibResult :=
  let span := v_max - v_min
  let rem := Int.tmod span 65536
  let tmp := v_min * 65536
  let rem2 := Int.tmod tmp span
  { scale_int := Int.tdiv span 65536
    scale_dec := DIV_ROUND_CLOSEST (rem * 1000000) 65536
    offset_int := Int.tdiv tmp span
    offset_dec := Int.tdiv (rem2 * 1000000) span }

/-- Gain-scaling permille multipliers (gains_scaling_table). -/
def gains_scaling_table : List Int := [1000, 500, 250, 125]

/-- Embedding of ad3552r_get_custom_range: custom (v_min, v_max) in
millivolts from feedback resistance, signed gain offset and the two
gain-scaling codes. -/
def ad3552r_get_custom_range (rfb gain_offset : Int) (n p : Nat) :
    Int × Int :=
  let vref : Int := 2500
  let common : Int := 2575 * rfb
  let gn := gains_scaling_table.getD n 0
  let tmp1 := Int.tdiv ((1024 * gn + AD3552R_GAIN_SCALE * gain_offset) * common)
      (1024 * AD3552R_GAIN_SCALE)
  let gp := gains_scaling_table.getD p 0
  let tmp2 := Int.tdiv ((1024 * gp - AD3552R_GAIN_SCALE * gain_offset) * common)
      (1024 * AD3552R_GAIN_SCALE)
  (vref - tmp2, vref + tmp1)

/-- C5 counterexample: the claim says exactly three explicit special
addresses have width 1, but the switch in _ad3552r_reg_len lists six
distinct explicit case labels, all of width 1; moreover five addresses
above the first boundary (not three) have width 1. -/
theorem C5_counterexample :
    ad3552r_one_byte_special_addrs.Nodup ∧
    ad3552r_one_byte_special_addrs.length = 6 ∧
    (∀ a ∈ ad3552r_one_byte_special_addrs, _ad3552r_reg_len a = 1) ∧
    ((List.range 0x80).filter
      (fun a => _ad3552r_reg_len a = 1 ∧ AD3552R_REG_ADDR_HW_LDAC_16B < a)).length = 5 ∧
    ad3552r_one_byte_special_addrs.length ≠ 3 := by
  decide

set_option maxRecDepth 40000 in
/-- C5 (amended): register width is a pure function of the address; the six
explicit special addresses of the switch have width 1, and away from them the
width is 1, 2 or 3 bytes, increasing with the address past the two fixed bank
boundaries. -/
theorem C5_reg_len_pure_of_addr :
    (∀ a ∈ ad3552r_one_byte_special_addrs, _ad3552r_reg_len a = 1) ∧
    (∀ a : Nat, a < 0x80 → a ∉ ad3552r_one_byte_special_addrs →
      _ad3552r_reg_len a =
        if AD3552R_REG_ADDR_HW_LDAC_24B < a then 3
        else if AD3552R_REG_ADDR_HW_LDAC_16B < a then 2 else 1) ∧
    (∀ a : Nat, a < 0x80 → ∀ b : Nat, b < 0x80 →
      (a ≤ b ∧ a ∉ ad3552r_one_byte_special_addrs ∧
        b ∉ ad3552r_one_byte_special_addrs) →
      _ad3552r_reg_len a ≤ _ad3552r_reg_len b) := by
  decide

/-- Witness for C5_reg_len_pure_of_addr at concrete addresses. -/
theorem C5_reg_len_pure_of_addr_witness :
    _ad3552r_reg_len 0x40 = 3 ∧ _ad3552r_reg_len 0x29 ≤ _ad3552r_reg_len 0x40 := by
  constructor
  · have h := C5_reg_len_pure_of_addr.2.1 0x40 (by decide) (by decide)
    simpa using h
  · exact C5_reg_len_pure_of_addr.2.2 0x29 (by decide) 0x40 (by decide)
      (by decide)

/-- C2 counterexample: at the two-byte register 0x29 a write of 0x0F is
masked with the 12-bit left-aligned DAC mask, so reading back returns 0,
not 0x0F masked to 16 bits as the claim states. -/
theorem C2_counterexample :
    ad3552r_read_after_write false 0x29 0x0F = Except.ok 0 ∧
    _ad3552r_reg_len 0x29 = 2 ∧
    (0x0F : Nat) % 2 ^ (8 * 2) = 0x0F ∧ (0 : Nat) ≠ 0x0F := by
  refine ⟨rfl, by decide, by decide, by decide⟩

/-- C2 (amended): write then read over a faithful store returns the value
masked to 8w bits, except that two-byte registers are additionally masked
with the left-aligned 12-bit DAC mask 0xFFF0; three-byte registers return
the full 16-bit value (the third byte is written as zero). -/
theorem C2_write_then_read (asc : Bool) (addr val : Nat)
    (hv : val < 2 ^ 16)
    (hguard : ¬(AD3552R_SECONDARY_REGION_ADDR ≤ addr ∧ asc = true)) :
    ad3552r_read_after_write asc addr val =
      Except.ok (if _ad3552r_reg_len addr = 1 then val % 2 ^ 8
        else if _ad3552r_reg_len addr = 2 then val &&& AD3552R_MASK_DAC_12B
        else val % 2 ^ 16) := by
  have hpos := _ad3552r_reg_len_pos addr
  have hle := _ad3552r_reg_len_le addr
  have hg : ¬(_ad3552r_reg_len addr = 0 ∨
      (AD3552R_SECONDARY_REGION_ADDR ≤ addr ∧ asc = true)) := by
    push_neg
    exact ⟨by omega, fun h1 h2 => hguard ⟨h1, h2⟩⟩
  unfold ad3552r_read_after_write ad3552r_write_reg
  rw [if_neg hg]
  dsimp only
  unfold ad3552r_read_reg
  rw [if_neg hg]
  dsimp only
  rw [if_pos rfl]
  have h3 : _ad3552r_reg_len addr = 1 ∨ _ad3552r_reg_len addr = 2 ∨
      _ad3552r_reg_len addr = 3 := by omega
  rcases h3 with h | h | h
  · simp [ad3552r_read_reg_val, ad3552r_write_reg_buf, h]
  · have hb : val &&& AD3552R_MASK_DAC_12B ≤ 0xFFF0 := Nat.and_le_right
    simp only [ad3552r_read_reg_val, ad3552r_write_reg_buf, h]
    simp only [get_unaligned_be16, put_unaligned_be16]
    norm_num
    omega
  · simp only [ad3552r_read_reg_val, ad3552r_write_reg_buf, h]
    simp only [get_unaligned_be16, put_unaligned_be16]
    norm_num
    omega

/-- Witness for C2_write_then_read at a one-byte register. -/
theorem C2_write_then_read_witness :
    ad3552r_read_after_write false 0x01 0x1FF = Except.ok 0xFF := by
  have h := C2_write_then_read false 0x01 0x1FF (by decide) (by decide)
  simpa using h

/-- C8: for a channel calibration with v_min < v_max, the code's derived
constants equal the spec formulas: the scale integer is the (mathematical)
quotient span / 65536, the scale fraction is the round-to-nearest of the
exact rational (span mod 65536) * 1000000 / 65536, while the offset integer
and fraction both use truncating division (asymmetric rounding policy). -/
theorem C8_calc_gain_and_offset (v_min v_max : Int) (h : v_min < v_max) :
    (ad3552r_calc_gain_and_offset v_min v_max).scale_int =
      (v_max - v_min) / 65536 ∧
    (ad3552r_calc_gain_and_offset v_min v_max).scale_dec =
      round ((((v_max - v_min) % 65536 * 1000000 : Int) : ℚ) / 65536) ∧
    (ad3552r_calc_gain_and_offset v_min v_max).offset_int =
      Int.tdiv (v_min * 65536) (v_max - v_min) ∧
    (ad3552r_calc_gain_and_offset v_min v_max).offset_dec =
      Int.tdiv (Int.tmod (v_min * 65536) (v_max - v_min) * 1000000)
        (v_max - v_min) := by
  have hspan : (0 : Int) < v_max - v_min := by omega
  have h2 : Int.tmod (v_max - v_min) 65536 = (v_max - v_min) % 65536 :=
    Int.tmod_eq_emod hspan.le (by norm_num)
  have hrem : (0 : Int) ≤ (v_max - v_min) % 65536 :=
    Int.emod_nonneg _ (by norm_num)
  refine ⟨?_, ?_, rfl, rfl⟩
  · exact Int.tdiv_eq_ediv hspan.le (by norm_num)
  · show DIV_ROUND_CLOSEST (Int.tmod (v_max - v_min) 65536 * 1000000) 65536 = _
    rw [h2]
    set a : Int := (v_max - v_min) % 65536 * 1000000 with ha
    have ha0 : (0 : Int) ≤ a := by positivity
    unfold DIV_ROUND_CLOSEST
    have h32768 : Int.tdiv (65536 : Int) 2 = 32768 := by decide
    rw [h32768, Int.tdiv_eq_ediv (by omega) (by norm_num), round_eq]
    have hcast : (a : ℚ) / 65536 + 1 / 2 =
        ((a + 32768 : Int) : ℚ) / ((65536 : ℕ) : ℚ) := by
      push_cast
      ring
    rw [hcast, Rat.floor_intCast_div_natCast]
    norm_num

/-- Witness for C8_calc_gain_and_offset on the -5 V..5 V range. -/
theorem C8_calc_gain_and_offset_witness :
    (ad3552r_calc_gain_and_offset (-5000) 5000).scale_dec =
      round (((5000 - (-5000 : Int)) % 65536 * 1000000 : Int) / (65536 : ℚ)) := by
  exact (C8_calc_gain_and_offset (-5000) 5000 (by norm_num)).2.1

/-- The four SPI attributes the non-QSPI build of _update_spi_cfg can write
(enum ad3552r_spi_attributes in ad3552r.c). -/
inductive ad3552r_spi_attributes where
  | AD3552R_ADDR_ASCENSION
  | AD3552R_SINGLE_INST
  | AD3552R_STREAM_MODE
  | AD3552R_STREAM_LENGTH_KEEP_VALUE
deriving Repr, DecidableEq

/-- SPI interface configuration fields (struct ad3552_transfer_config,
non-QSPI build); all fields are uint8 values. -/
structure ad3552_transfer_config where
  addr_asc : Nat
  single_instr : Nat
  stream_mode_length : Nat
  stream_length_keep_value : Nat
deriving Repr, DecidableEq

/-- Outcome of _update_spi_cfg: the returned error, the updated cached
configuration, and the register writes issued in order. -/
structure UpdateSpiCfgResult where
  err : Int
  cache : ad3552_transfer_config
  writes : List (ad3552r_spi_attributes × Nat)
deriving Repr, DecidableEq

/-- Embedding of _update_spi_cfg from ad3552r.c.  The attribute register
write _ad3552r_set_reg_attr is abstracted as the oracle set_attr returning
the error of that write.  Each block compares a cached field with the
requested one, issues the write, and unconditionally updates the cache;
the stream-mode block additionally fires when the old keep-value flag was
zero, except when the old keep-value is zero and the requested length is
also zero. -/
def _update_spi_cfg (set_attr : ad3552r_spi_attributes → Nat → Int)
    (desc : ad3552_transfer_config) (cfg : ad3552_transfer_config) :
    UpdateSpiCfgResult :=
  let s0 : UpdateSpiCfgResult := { err := 0, cache := desc, writes := [] }
  let s1 : UpdateSpiCfgResult :=
    if s0.cache.addr_asc ≠ cfg.addr_asc then
      { err := set_attr ad3552r_spi_attributes.AD3552R_ADDR_ASCENSION cfg.addr_asc
        cache := { s0.cache with addr_asc := cfg.addr_asc }
        writes := s0.writes ++
          [(ad3552r_spi_attributes.AD3552R_ADDR_ASCENSION, cfg.addr_asc)] }
    else s0
  let s2 : UpdateSpiCfgResult :=
    if s1.cache.single_instr ≠ cfg.single_instr then
      { err := set_attr ad3552r_spi_attributes.AD3552R_SINGLE_INST cfg.single_instr
        cache := { s1.cache with single_instr := cfg.single_instr }
        writes := s1.writes ++
          [(ad3552r_spi_attributes.AD3552R_SINGLE_INST, cfg.single_instr)] }
    else s1
  let old_keep := s2.cache.stream_length_keep_value
  let s3 : UpdateSpiCfgResult :=
    if s2.cache.stream_length_keep_value ≠ cfg.stream_length_keep_value then
      { err := set_attr ad3552r_spi_attributes.AD3552R_STREAM_LENGTH_KEEP_VALUE
          cfg.stream_length_keep_value
        cache := { s2.cache with
          stream_length_keep_value := cfg.stream_length_keep_value }
        writes := s2.writes ++
          [(ad3552r_spi_attributes.AD3552R_STREAM_LENGTH_KEEP_VALUE,
            cfg.stream_length_keep_value)] }
    else s2
  if s3.cache.stream_mode_length ≠ cfg.stream_mode_length ∨ old_keep = 0 then
    if ¬(old_keep = 0 ∧ cfg.stream_mode_length = 0) then
      { err := set_attr ad3552r_spi_attributes.AD3552R_STREAM_MODE
          cfg.stream_mode_length
        cache := { s3.cache with stream_mode_length := cfg.stream_mode_length }
        writes := s3.writes ++
          [(ad3552r_spi_attributes.AD3552R_STREAM_MODE, cfg.stream_mode_length)] }
    else
      { err := s3.err
        cache := { s3.cache with stream_mode_length := cfg.stream_mode_length }
        writes := s3.writes }
  else s3

/-- The register writes the cache sync is expected to issue, stated directly
in terms of the initial cache and the requested configuration. -/
def spi_cfg_expected_writes (desc cfg : ad3552_transfer_config) :
    List (ad3552r_spi_attributes × Nat) :=
  (if desc.addr_asc ≠ cfg.addr_asc then
    [(ad3552r_spi_attributes.AD3552R_ADDR_ASCENSION, cfg.addr_asc)] else []) ++
  (if desc.single_instr ≠ cfg.single_instr then
    [(ad3552r_spi_attributes.AD3552R_SINGLE_INST, cfg.single_instr)] else []) ++
  (if desc.stream_length_keep_value ≠ cfg.stream_length_keep_value then
    [(ad3552r_spi_attributes.AD3552R_STREAM_LENGTH_KEEP_VALUE,
      cfg.stream_length_keep_value)] else []) ++
  (if (desc.stream_mode_length ≠ cfg.stream_mode_length ∨
       desc.stream_length_keep_value = 0) ∧
      ¬(desc.stream_length_keep_value = 0 ∧ cfg.stream_mode_length = 0) then
    [(ad3552r_spi_attributes.AD3552R_STREAM_MODE, cfg.stream_mode_length)]
   else [])

/-- C7 counterexample: with the cached and requested configurations both
equal to (asc 0, single 0, stream length 5, keep 0), no field differs, yet
the sync issues a stream-mode register write because the cached keep-value
flag is zero; so writes are not issued for each and only each differing
field. -/
theorem C7_counterexample :
    (_update_spi_cfg (fun _ _ => 0)
      { addr_asc := 0, single_instr := 0, stream_mode_length := 5,
        stream_length_keep_value := 0 }
      { addr_asc := 0, single_instr := 0, stream_mode_length := 5,
        stream_length_keep_value := 0 }).writes =
      [(ad3552r_spi_attributes.AD3552R_STREAM_MODE, 5)] ∧
    [(ad3552r_spi_attributes.AD3552R_STREAM_MODE, 5)] ≠
      ([] : List (ad3552r_spi_attributes × Nat)) := by
  exact ⟨rfl, by decide⟩

/-- C7 (amended): the sync issues a register write for each cached field
that differs from the requested one, except that the stream-mode length is
also rewritten whenever the previously cached keep-value flag is zero,
unless the old keep-value is zero and the requested length is zero, in
which case the length write is skipped even if the values differ; the cache
is updated to the requested configuration regardless of write errors, all
fields are processed even after a failure, and the error surfaced is that
of the most recent write issued (success if none was issued). -/
theorem C7_update_spi_cfg_spec (set_attr : ad3552r_spi_attributes → Nat → Int)
    (desc cfg : ad3552_transfer_config) :
    (_update_spi_cfg set_attr desc cfg).cache = cfg ∧
    (_update_spi_cfg set_attr desc cfg).writes =
      spi_cfg_expected_writes desc cfg ∧
    (_update_spi_cfg set_attr desc cfg).err =
      (match (_update_spi_cfg set_attr desc cfg).writes.getLast? with
       | none => 0
       | some (a, v) => set_attr a v) := by
  obtain ⟨a, s, l, k⟩ := desc
  obtain ⟨a', s', l', k'⟩ := cfg
  simp only [_update_spi_cfg, spi_cfg_expected_writes]
  split_ifs <;>
    simp_all [List.getLast?_append, List.getLast?]

/-- Outcome of the status poll loop in ad3552r_reset: either the index of
the read that observed the not-ready bit clear, or a timeout carrying the
number of reads performed. -/
inductive ResetPollResult where
  | ready (k : Nat)
  | timedOut (reads : Nat)
deriving Repr, DecidableEq

/-- Embedding of the while(true) status poll in ad3552r_reset.  trace n is
the INTERFACE_CONFIG_B value returned by the n-th read.  Before the first
observation of the post-reset default value the loop only records that
marker (first_check); only afterwards does a clear not-ready bit end the
loop.  The timeout counter is decremented after each read and reaching
zero aborts the poll. -/
def ad3552r_reset_poll (trace : Nat → Nat) : Nat → Bool → Nat → ResetPollResult
  | _, _, 0 => ResetPollResult.timedOut 0
  | n, first_check, t + 1 =>
    let val := trace n
    if first_check = true ∧ val &&& AD3552R_MASK_INTERFACE_NOT_READY = 0 then
      ResetPollResult.ready n
    else if t = 0 then ResetPollResult.timedOut 1
    else
      let fc := if first_check = false then
          val == AD3552R_DEFAULT_CONFIG_B_VALUE else true
      match ad3552r_reset_poll trace (n + 1) fc t with
      | ResetPollResult.ready k => ResetPollResult.ready k
      | ResetPollResult.timedOut r => ResetPollResult.timedOut (r + 1)

/-- Outcome of ad3552r_reset: the returned error, the number of status
reads performed, and the value written to the address-ascension attribute
afterwards (none when the poll timed out). -/
structure ResetResult where
  err : Int
  reads : Nat
  asc_write : Option Nat
deriving Repr, DecidableEq

/-- Embedding of ad3552r_reset after the reset pulse: poll the status
register with a budget of 5000 reads; on success force the
address-ascension attribute to 0 (descending); on exhaustion return -EIO. -/
def ad3552r_reset (trace : Nat → Nat) : ResetResult :=
  match ad3552r_reset_poll trace 0 false 5000 with
  | ResetPollResult.ready k =>
      { err := 0, reads := k + 1, asc_write := some 0 }
  | ResetPollResult.timedOut r =>
      { err := -EIO_errno, reads := r, asc_write := none }

theorem ad3552r_reset_poll_ready_sound (trace : Nat → Nat) :
    ∀ t n fc k, ad3552r_reset_poll trace n fc t = ResetPollResult.ready k →
      n ≤ k ∧ k < n + t ∧
      trace k &&& AD3552R_MASK_INTERFACE_NOT_READY = 0 ∧
      (fc = false →
        ∃ j, n ≤ j ∧ j < k ∧ trace j = AD3552R_DEFAULT_CONFIG_B_VALUE) := by
  intro t
  induction t with
  | zero =>
    intro n fc k h
    simp [ad3552r_reset_poll] at h
  | succ t ih =>
    intro n fc k h
    rw [ad3552r_reset_poll] at h
    split at h
    · rename_i hcond
      cases h
      exact ⟨Nat.le_refl _, by omega, hcond.2,
        fun hfc => absurd hcond.1 (by simp [hfc])⟩
    · split at h
      · exact absurd h (by simp)
      · rename_i hcond ht
        dsimp only at h
        cases hrec : ad3552r_reset_poll trace (n + 1)
            (if fc = false then trace n == AD3552R_DEFAULT_CONFIG_B_VALUE
             else true) t with
        | ready k' =>
          rw [hrec] at h
          cases h
          obtain ⟨h1, h2, h3, h4⟩ := ih (n + 1) _ k hrec
          refine ⟨by omega, by omega, h3, fun hfc => ?_⟩
          by_cases hv : trace n = AD3552R_DEFAULT_CONFIG_B_VALUE
          · exact ⟨n, Nat.le_refl _, by omega, hv⟩
          · have hfc' : (if fc = false then
                (trace n == AD3552R_DEFAULT_CONFIG_B_VALUE) else true) = false := by
              simp [hfc, hv]
            obtain ⟨j, hj1, hj2, hj3⟩ := h4 hfc'
            exact ⟨j, by omega, hj2, hj3⟩
        | timedOut r =>
          rw [hrec] at h
          exact absurd h (by simp)

theorem ad3552r_reset_poll_timeout_sound (trace : Nat → Nat) :
    ∀ t n fc r, 1 ≤ t →
      ad3552r_reset_poll trace n fc t = ResetPollResult.timedOut r → r = t := by
  intro t
  induction t with
  | zero =>
    intro n fc r h
    omega
  | succ t ih =>
    intro n fc r _ h
    rw [ad3552r_reset_poll] at h
    split at h
    · exact absurd h (by simp)
    · split at h
      · rename_i ht
        cases h
        omega
      · rename_i hcond ht
        dsimp only at h
        cases hrec : ad3552r_reset_poll trace (n + 1)
            (if fc = false then trace n == AD3552R_DEFAULT_CONFIG_B_VALUE
             else true) t with
        | ready k' =>
          rw [hrec] at h
          exact absurd h (by simp)
        | timedOut r' =>
          rw [hrec] at h
          cases h
          have := ih (n + 1) _ r' (by omega) hrec
          omega

/-- C6: the reset poll reports Ready (success, and then forces the
address-ascension attribute to 0, its descending default) only after some
read observed the documented post-reset default value and a strictly later
read observed the not-ready bit clear, all within the budget of 5000
reads; if the budget is exhausted first it returns -EIO after exactly 5000
reads and never reports Ready (no ascension write is issued). -/
theorem C6_reset_ready_only_after_marker (trace : Nat → Nat) :
    ((ad3552r_reset trace).err = 0 →
      ∃ k, (ad3552r_reset trace).reads = k + 1 ∧ k + 1 ≤ 5000 ∧
        trace k &&& AD3552R_MASK_INTERFACE_NOT_READY = 0 ∧
        (∃ j, j < k ∧ trace j = AD3552R_DEFAULT_CONFIG_B_VALUE) ∧
        (ad3552r_reset trace).asc_write = some 0) ∧
    ((ad3552r_reset trace).err ≠ 0 →
      (ad3552r_reset trace).err = -EIO_errno ∧
      (ad3552r_reset trace).reads = 5000 ∧
      (ad3552r_reset trace).asc_write = none) := by
  unfold ad3552r_reset
  cases hp : ad3552r_reset_poll trace 0 false 5000 with
  | ready k =>
    obtain ⟨h1, h2, h3, h4⟩ := ad3552r_reset_poll_ready_sound trace 5000 0 false k hp
    obtain ⟨j, hj1, hj2, hj3⟩ := h4 rfl
    dsimp only
    constructor
    · intro _
      exact ⟨k, rfl, by omega, h3, ⟨j, hj2, hj3⟩, rfl⟩
    · intro hne
      exact absurd rfl hne
  | timedOut r =>
    have hr := ad3552r_reset_poll_timeout_sound trace 5000 0 false r (by omega) hp
    dsimp only
    constructor
    · intro h0
      exact absurd h0 (by simp [EIO_errno])
    · intro _
      exact ⟨rfl, by omega, rfl⟩

/-- Witness for C6 on the trace that reads the default marker first and a
not-ready-clear status second. -/
theorem C6_reset_witness :
    ∃ k, (ad3552r_reset fun n => if n = 0 then 8 else 0).reads = k + 1 ∧
      k + 1 ≤ 5000 ∧
      (if k = 0 then 8 else 0) &&& AD3552R_MASK_INTERFACE_NOT_READY = 0 ∧
      (∃ j, j < k ∧ (if j = 0 then 8 else 0) = AD3552R_DEFAULT_CONFIG_B_VALUE) ∧
      (ad3552r_reset fun n => if n = 0 then 8 else 0).asc_write = some 0 := by
  exact (C6_reset_ready_only_after_marker fun n => if n = 0 then 8 else 0).1 rfl

/-- Modelled from the spec: see AD3552R_REG_ADDR_HW_LDAC_16B. -/
def AD3552R_REG_ADDR_CH_INPUT_24B (ch : Nat) : Nat := 0x4B - (1 - ch) * 3

/-- Write modes of ad3552r_write_samples / ad3552r_write_all_channels
(enum ad3552r_write_mode). -/
inductive ad3552r_write_mode where
  | AD3552R_WRITE_DAC_REGS
  | AD3552R_WRITE_INPUT_REGS
  | AD3552R_WRITE_INPUT_REGS_AND_TRIGGER_LDAC
deriving Repr, DecidableEq

/-- Embedding of _get_code_reg_addr: the code register address for a
channel, DAC vs input bank, fast (16-bit) vs precision (24-bit) mode. -/
def _get_code_reg_addr (ch : Nat) (is_dac : Bool) (is_fast : Bool) : Nat :=
  if is_dac then
    if is_fast then AD3552R_REG_ADDR_CH_DAC_16B ch
    else AD3552R_REG_ADDR_CH_DAC_24B ch
  else
    if is_fast then AD3552R_REG_ADDR_CH_INPUT_16B ch
    else AD3552R_REG_ADDR_CH_INPUT_24B ch

/-- The burst message built by ad3552r_write_all_channels: start address,
length and the transmitted bytes, plus whether an LDAC trigger follows. -/
structure WriteAllChannelsMsg where
  addr : Nat
  len : Nat
  buff : List Nat
  ldac_trigger_after : Bool
deriving Repr, DecidableEq

/-- Embedding of ad3552r_write_all_channels: packs the two channel codes
d0 and d1 big-endian into one zero-initialised 7-byte buffer.  In fast
mode the first code's low nibble is cleared at buff[1]; the second
nibble-clearing indexes buff[len + 1] after len was already advanced past
the second code, i.e. it masks buff[5], one byte past the packed codes.
When the mode requests an LDAC trigger and no LDAC pin exists, a
software-LDAC byte is appended. -/
def ad3552r_write_all_channels (fast_en0 : Bool) (ldac_present : Bool)
    (d0 d1 : Nat) (mode : ad3552r_write_mode) : WriteAllChannelsMsg :=
  let is_fast := fast_en0
  let b0 : List Nat := List.replicate 7 0
  let b1 := (b0.set 0 (d0 / 256 % 256)).set 1 (d0 % 256)
  let b2 := if is_fast then b1.set 1 (b1.getD 1 0 &&& 0xF0) else b1
  let len2 := if is_fast then 2 else 3
  let b3 := (b2.set len2 (d1 / 256 % 256)).set (len2 + 1) (d1 % 256)
  let len3 := len2 + 2
  let b4 := if is_fast then b3.set (len3 + 1) (b3.getD (len3 + 1) 0 &&& 0xF0)
            else b3
  let len4 := if is_fast then len3 else len3 + 1
  let append_sw_ldac :=
    mode = ad3552r_write_mode.AD3552R_WRITE_INPUT_REGS_AND_TRIGGER_LDAC ∧
    ldac_present = false
  let b5 := if append_sw_ldac then b4.set len4 AD3552R_MASK_ALL_CH else b4
  let len5 := if append_sw_ldac then len4 + 1 else len4
  { addr := _get_code_reg_addr 1
      (mode = ad3552r_write_mode.AD3552R_WRITE_DAC_REGS) is_fast
    len := len5
    buff := b5.take len5
    ldac_trigger_after :=
      mode = ad3552r_write_mode.AD3552R_WRITE_INPUT_REGS_AND_TRIGGER_LDAC }

/-- Embedding of find_first_set_bit from no-os/util over 32-bit values. -/
def find_first_set_bit (x : Nat) : Nat :=
  (List.range 32).findIdx (fun i => x.testBit i)

/-- Embedding of ad3552r_write_samples: f0 and f1 are the two channels'
fast_en flags.  The mismatched-fast-mode guard is reproduced exactly as in
the source: it compares channel 0's flag with channel 0's flag.  For the
all-channels mask the per-sample bursts are built by
ad3552r_write_all_channels (which uses channel 0's fast_en); otherwise
each sample is a single register write to the first selected channel. -/
def ad3552r_write_samples (f0 f1 : Bool) (ldac_present : Bool)
    (data : List Nat) (samples : Nat) (ch_mask : Nat)
    (mode : ad3552r_write_mode) : Except Int (List WriteAllChannelsMsg) :=
  if ch_mask = AD3552R_MASK_ALL_CH ∧ f0 ≠ f0 then
    Except.error (-EINVAL)
  else if ch_mask = AD3552R_MASK_ALL_CH then
    Except.ok ((List.range samples).map (fun i =>
      ad3552r_write_all_channels f0 ldac_present
        (data.getD (2 * i) 0) (data.getD (2 * i + 1) 0) mode))
  else
    let ch := find_first_set_bit ch_mask
    let is_input := mode = ad3552r_write_mode.AD3552R_WRITE_DAC_REGS
    let fast := if ch = 0 then f0 else f1
    let addr := _get_code_reg_addr ch is_input fast
    Except.ok ((List.range samples).map (fun i =>
      { addr := addr
        len := _ad3552r_reg_len addr
        buff := ad3552r_write_reg_buf addr (data.getD i 0)
        ldac_trigger_after :=
          mode = ad3552r_write_mode.AD3552R_WRITE_INPUT_REGS_AND_TRIGGER_LDAC }))

/-- C9: in fast mode the burst leaves the second channel's low nibble in
the transmitted buffer (only the first channel's is cleared; the second
masking lands one byte past the packed codes), contrary to the claim that
each channel's code is truncated to 12 bits; the software-LDAC byte is
appended when no LDAC pin exists and the mode requests a trigger. -/
theorem C9_write_all_channels_second_nibble :
    (ad3552r_write_all_channels true true 0x1234 0xABCD
      ad3552r_write_mode.AD3552R_WRITE_INPUT_REGS).buff =
      [0x12, 0x30, 0xAB, 0xCD] ∧
    [0x12, 0x30, 0xAB, 0xCD] ≠ [0x12, 0x30, 0xAB, 0xC0] ∧
    (ad3552r_write_all_channels true false 0x1234 0xABCD
      ad3552r_write_mode.AD3552R_WRITE_INPUT_REGS_AND_TRIGGER_LDAC).buff =
      [0x12, 0x30, 0xAB, 0xCD, AD3552R_MASK_ALL_CH] ∧
    (ad3552r_write_all_channels false false 0x1234 0xABCD
      ad3552r_write_mode.AD3552R_WRITE_INPUT_REGS).buff =
      [0x12, 0x34, 0x00, 0xAB, 0xCD, 0x00] := by
  refine ⟨rfl, by decide, rfl, rfl⟩

/-- C10: with the all-channels mask the mismatched-fast-mode guard never
fires (it compares channel 0's fast_en with itself), so the call never
returns -EINVAL from that guard even when the two flags differ, and the
result is the same as if channel 1 had channel 0's flag: the bursts are
formatted with channel 0's fast_en. -/
theorem C10_write_samples_guard_self_compare (f0 f1 : Bool)
    (ldac_present : Bool) (data : List Nat) (samples : Nat)
    (mode : ad3552r_write_mode) :
    ad3552r_write_samples f0 f1 ldac_present data samples
        AD3552R_MASK_ALL_CH mode ≠ Except.error (-EINVAL) ∧
    ad3552r_write_samples f0 f1 ldac_present data samples
        AD3552R_MASK_ALL_CH mode =
      ad3552r_write_samples f0 f0 ldac_present data samples
        AD3552R_MASK_ALL_CH mode := by
  constructor
  · simp [ad3552r_write_samples]
  · simp [ad3552r_write_samples]

/-- The register address _ad3552r_transfer_with_crc uses for the chunk at
accumulated signed byte offset inc: the stream-wrapped (or plain) offset is
added to the start address, converted to uint8 (mod 256), then wrapped
modulo the total register address space.  C's % on the signed offset is
truncating (Int.tmod). -/
def crc_chunk_addr (cfg : ad3552_transfer_config) (start_addr : Nat)
    (inc : Int) : Nat :=
  let addr_pre : Int :=
    if cfg.stream_mode_length ≠ 0 then
      (start_addr : Int) + Int.tmod inc (cfg.stream_mode_length : Int)
    else (start_addr : Int) + inc
  (addr_pre % 256).toNat % AD3552R_REG_ADDR_MAX

/-- One chunk of a CRC-framed transfer: byte offset at chunk start, the
register address used, and the bytes transmitted and received. -/
structure CrcChunk where
  i : Nat
  addr : Nat
  tx : List Nat
  rx : List Nat
deriving Repr, DecidableEq

/-- Result of a CRC-framed transfer: the returned error, the data buffer
at return time (reads overwrite it chunk by chunk), and the chunk log. -/
structure CrcTransferResult where
  err : Int
  data : List Nat
  chunks : List CrcChunk
deriving Repr, DecidableEq

/-- The CRC seed of the chunk at byte offset i addressing addr, as computed
by _ad3552r_transfer_with_crc: the raw address for every chunk after the
first, crc8 over the instruction byte (seed 0xA5) for the first. -/
def crc_chunk_seed (instr i addr : Nat) : Nat :=
  if 0 < i then addr else crc8 [instr] AD3552R_CRC_SEED

/-- The bytes _ad3552r_transfer_with_crc transmits for the chunk at byte
offset i addressing addr: 0xFF filler for a continued read, otherwise the
optional instruction byte, the chunk's data slice, and the trailing CRC
over that slice with the chunk's seed. -/
def crc_chunk_tx (is_read : Bool) (instr i addr : Nat) (data : List Nat) :
    List Nat :=
  let reg_len := _ad3552r_reg_len addr
  let data_slice := (data.drop i).take reg_len
  if is_read = true ∧ 0 < i then List.replicate (reg_len + 1) 0xFF
  else (if i = 0 then [instr] else []) ++ data_slice ++
    [crc8 data_slice (crc_chunk_seed instr i addr)]

/-- The bytes received for one chunk: the bus reply, truncated or
zero-padded to the frame length. -/
def crc_chunk_rx (bus : Nat → List Nat → List Nat) (k : Nat)
    (tx : List Nat) : List Nat :=
  (bus k tx ++ List.replicate tx.length 0).take tx.length

/-- Embedding of the do-while loop of _ad3552r_transfer_with_crc.  bus maps
the chunk index and transmitted bytes to the received bytes.  After each
exchange, reads copy the received bytes into the data buffer and then check
the received CRC, writes compare the echoed byte at the frame's CRC
position; a mismatch returns -EBADMSG.  The signed byte offset inc advances
by the ascension sign times the chunk width. -/
def _ad3552r_transfer_with_crc_go (bus : Nat → List Nat → List Nat)
    (cfg : ad3552_transfer_config) (start_addr : Nat) (is_read : Bool)
    (len : Nat) (instr : Nat) (k i : Nat) (inc : Int) (data : List Nat) :
    CrcTransferResult :=
  let sign : Int := if cfg.addr_asc ≠ 0 then 1 else -1
  let addr : Nat := crc_chunk_addr cfg start_addr inc
  let reg_len := _ad3552r_reg_len addr
  let tx := crc_chunk_tx is_read instr i addr data
  let rx := crc_chunk_rx bus k tx
  let chunk : CrcChunk := { i := i, addr := addr, tx := tx, rx := rx }
  if is_read = true then
    let pbuf := if i = 0 then rx.drop 1 else rx
    let data2 := data.take i ++ pbuf.take reg_len ++ data.drop (i + reg_len)
    if pbuf.getD reg_len 0 ≠
        crc8 (pbuf.take reg_len) (crc_chunk_seed instr i addr) then
      { err := -EBADMSG, data := data2, chunks := [chunk] }
    else if i + reg_len < len then
      let res := _ad3552r_transfer_with_crc_go bus cfg start_addr is_read len
        instr (k + 1) (i + reg_len) (inc + sign * reg_len) data2
      { err := res.err, data := res.data, chunks := chunk :: res.chunks }
    else { err := 0, data := data2, chunks := [chunk] }
  else
    let echo_idx := reg_len + (if i = 0 then 1 else 0)
    if rx.getD echo_idx 0 ≠ tx.getD echo_idx 0 then
      { err := -EBADMSG, data := data, chunks := [chunk] }
    else if i + reg_len < len then
      let res := _ad3552r_transfer_with_crc_go bus cfg start_addr is_read len
        instr (k + 1) (i + reg_len) (inc + sign * reg_len) data
      { err := res.err, data := res.data, chunks := chunk :: res.chunks }
    else { err := 0, data := data, chunks := [chunk] }
termination_by len - i
decreasing_by
  all_goals
    have h1 := _ad3552r_reg_len_pos (crc_chunk_addr cfg start_addr inc)
    omega

/-- Embedding of _ad3552r_transfer_with_crc: run the chunk loop from byte
offset 0 with accumulated offset 0. -/
def _ad3552r_transfer_with_crc (bus : Nat → List Nat → List Nat)
    (cfg : ad3552_transfer_config) (start_addr : Nat) (is_read : Bool)
    (data : List Nat) (len : Nat) (instr : Nat) : CrcTransferResult :=
  _ad3552r_transfer_with_crc_go bus cfg start_addr is_read len instr 0 0 0 data

/-- The instruction byte built by ad3552r_transfer: low 7 bits of the
address, plus the read bit for reads. -/
def ad3552r_transfer_instr (addr : Nat) (is_read : Bool) : Nat :=
  addr % 0x80 + (if is_read = true then AD3552R_READ_BIT else 0)

/-- The CRC seed the protocol prescribes for a chunk: crc8 over the
instruction byte alone (seed 0xA5) for the chunk at offset 0, the chunk's
raw address byte afterwards. -/
def chunk_seed (instr : Nat) (c : CrcChunk) : Nat :=
  if c.i = 0 then crc8 [instr] AD3552R_CRC_SEED else c.addr

/-- A read chunk is valid when the received CRC byte equals crc8 over the
received data bytes with the chunk's seed (the instruction byte slot is
skipped on the first chunk). -/
abbrev read_chunk_ok (instr : Nat) (c : CrcChunk) : Prop :=
  (if c.i = 0 then c.rx.drop 1 else c.rx).getD (_ad3552r_reg_len c.addr) 0 =
    crc8 ((if c.i = 0 then c.rx.drop 1 else c.rx).take (_ad3552r_reg_len c.addr))
      (chunk_seed instr c)

theorem chunk_seed_mk (instr i addr : Nat) (tx rx : List Nat) :
    chunk_seed instr ⟨i, addr, tx, rx⟩ = crc_chunk_seed instr i addr := by
  unfold chunk_seed crc_chunk_seed
  rcases Nat.eq_zero_or_pos i with h | h
  · simp [h]
  · simp [h, Nat.pos_iff_ne_zero.mp h]

theorem read_chunk_ok_mk (instr i addr : Nat) (tx rx : List Nat) :
    read_chunk_ok instr ⟨i, addr, tx, rx⟩ ↔
      (if i = 0 then rx.drop 1 else rx).getD (_ad3552r_reg_len addr) 0 =
        crc8 ((if i = 0 then rx.drop 1 else rx).take (_ad3552r_reg_len addr))
          (crc_chunk_seed instr i addr) := by
  unfold read_chunk_ok
  rw [chunk_seed_mk]

theorem crc_read_go_sound (bus : Nat → List Nat → List Nat)
    (cfg : ad3552_transfer_config) (start_addr : Nat) (len : Nat)
    (instr : Nat) :
    ∀ n k i inc data, len - i = n →
      ((_ad3552r_transfer_with_crc_go bus cfg start_addr true len instr
          k i inc data).err = 0 ∨
       (_ad3552r_transfer_with_crc_go bus cfg start_addr true len instr
          k i inc data).err = -EBADMSG) ∧
      ((_ad3552r_transfer_with_crc_go bus cfg start_addr true len instr
          k i inc data).err = 0 ↔
        ∀ c ∈ (_ad3552r_transfer_with_crc_go bus cfg start_addr true len instr
          k i inc data).chunks, read_chunk_ok instr c) := by
  intro n
  induction n using Nat.strong_induction_on with
  | _ n ih =>
    intro k i inc data hn
    rw [_ad3552r_transfer_with_crc_go]
    dsimp only
    rw [if_pos rfl]
    generalize haddr : crc_chunk_addr cfg start_addr inc = addr
    have hwpos := _ad3552r_reg_len_pos addr
    generalize htx : crc_chunk_tx true instr i addr data = tx
    generalize hrx : crc_chunk_rx bus k tx = rx
    generalize hw : _ad3552r_reg_len addr = w
    rw [hw] at hwpos
    have hchunk_iff : read_chunk_ok instr ⟨i, addr, tx, rx⟩ ↔
        (if i = 0 then rx.drop 1 else rx).getD w 0 =
          crc8 ((if i = 0 then rx.drop 1 else rx).take w)
            (crc_chunk_seed instr i addr) := by
      rw [read_chunk_ok_mk, hw]
    by_cases hcrc : (if i = 0 then rx.drop 1 else rx).getD w 0 ≠
        crc8 ((if i = 0 then rx.drop 1 else rx).take w)
          (crc_chunk_seed instr i addr)
    · rw [if_pos hcrc]
      dsimp only
      refine ⟨Or.inr rfl, ?_, ?_⟩
      · intro h0
        exact absurd h0 (by norm_num [EBADMSG])
      · intro hall
        exfalso
        have hc := hall ⟨i, addr, tx, rx⟩ (List.mem_singleton.mpr rfl)
        exact hcrc (hchunk_iff.mp hc)
    · rw [if_neg hcrc]
      have hchunk_ok : read_chunk_ok instr ⟨i, addr, tx, rx⟩ :=
        hchunk_iff.mpr (not_ne_iff.mp hcrc)
      by_cases hloop : i + w < len
      · rw [if_pos hloop]
        dsimp only
        obtain ⟨ihA, ihB⟩ := ih (len - (i + w)) (by omega) (k + 1) (i + w)
          (inc + (if cfg.addr_asc ≠ 0 then 1 else -1) * (w : Int))
          (data.take i ++ (if i = 0 then rx.drop 1 else rx).take w ++
            data.drop (i + w)) rfl
        refine ⟨ihA, ?_, ?_⟩
        · intro h0 c hc
          rcases List.mem_cons.mp hc with rfl | hc
          · exact hchunk_ok
          · exact (ihB.mp h0) c hc
        · intro hall
          exact ihB.mpr (fun c hc => hall c (List.mem_cons_of_mem _ hc))
      · rw [if_neg hloop]
        dsimp only
        refine ⟨Or.inl rfl, ?_, ?_⟩
        · intro _ c hc
          rcases List.mem_singleton.mp hc with rfl
          exact hchunk_ok
        · intro _
          rfl

/-- C1 (amended): a CRC-framed read returns success exactly when every
chunk's received CRC byte validates against the data actually received
under that chunk's seed, and otherwise returns the integrity error
-EBADMSG, aborting the whole transfer; however, each chunk's received
bytes are copied into the caller's result buffer before its CRC is
checked, so an aborted transfer can leave unvalidated bytes there. -/
theorem C1_crc_read_integrity (bus : Nat → List Nat → List Nat)
    (cfg : ad3552_transfer_config) (start_addr len instr : Nat)
    (data : List Nat) :
    ((_ad3552r_transfer_with_crc bus cfg start_addr true data len instr).err
        = 0 ∨
     (_ad3552r_transfer_with_crc bus cfg start_addr true data len instr).err
        = -EBADMSG) ∧
    ((_ad3552r_transfer_with_crc bus cfg start_addr true data len instr).err
        = 0 ↔
      ∀ c ∈ (_ad3552r_transfer_with_crc bus cfg start_addr true data len
          instr).chunks, read_chunk_ok instr c) :=
  crc_read_go_sound bus cfg start_addr len instr (len - 0) 0 0 0 data rfl

/-- C1 counterexample: a read whose single chunk arrives with a corrupted
CRC returns -EBADMSG, but the received data byte 0xAB has already been
copied into the caller's result buffer, so the bytes were placed in the
result buffer before the chunk's CRC validated. -/
theorem C1_counterexample :
    (_ad3552r_transfer_with_crc (fun _ _ => [0, 0xAB, 0])
        ⟨1, 0, 0, 0⟩ 1 true [0] 1 (ad3552r_transfer_instr 1 true)).err =
      -EBADMSG ∧
    (_ad3552r_transfer_with_crc (fun _ _ => [0, 0xAB, 0])
        ⟨1, 0, 0, 0⟩ 1 true [0] 1 (ad3552r_transfer_instr 1 true)).data =
      [0xAB] ∧
    ¬ read_chunk_ok (ad3552r_transfer_instr 1 true)
      ((_ad3552r_transfer_with_crc (fun _ _ => [0, 0xAB, 0])
        ⟨1, 0, 0, 0⟩ 1 true [0] 1
          (ad3552r_transfer_instr 1 true)).chunks.getD 0 ⟨0, 0, [], []⟩) := by
  unfold _ad3552r_transfer_with_crc _ad3552r_transfer_with_crc_go
  exact ⟨by decide, by decide, by decide⟩
theorem crc_chunk_tx_write (instr i addr : Nat) (data : List Nat) :
    crc_chunk_tx false instr i addr data =
      (if i = 0 then [instr] else []) ++
        (data.drop i).take (_ad3552r_reg_len addr) ++
        [crc8 ((data.drop i).take (_ad3552r_reg_len addr))
          (if i = 0 then crc8 [instr] AD3552R_CRC_SEED else addr)] := by
  unfold crc_chunk_tx crc_chunk_seed
  rcases Nat.eq_zero_or_pos i with h | h
  · simp [h]
  · simp [h, Nat.pos_iff_ne_zero.mp h]

theorem crc_write_go_tx (bus : Nat → List Nat → List Nat)
    (cfg : ad3552_transfer_config) (start_addr : Nat) (len : Nat)
    (instr : Nat) :
    ∀ n k i inc data, len - i = n →
      ∀ c ∈ (_ad3552r_transfer_with_crc_go bus cfg start_addr false len instr
        k i inc data).chunks,
        c.tx = (if c.i = 0 then [instr] else []) ++
          (data.drop c.i).take (_ad3552r_reg_len c.addr) ++
          [crc8 ((data.drop c.i).take (_ad3552r_reg_len c.addr))
            (if c.i = 0 then crc8 [instr] AD3552R_CRC_SEED else c.addr)] := by
  intro n
  induction n using Nat.strong_induction_on with
  | _ n ih =>
    intro k i inc data hn c hc
    rw [_ad3552r_transfer_with_crc_go] at hc
    dsimp only at hc
    rw [if_neg (by simp : ¬(false = true))] at hc
    set addr := crc_chunk_addr cfg start_addr inc with haddr
    have hwpos := _ad3552r_reg_len_pos addr
    set w := _ad3552r_reg_len addr with hw
    set tx := crc_chunk_tx false instr i addr data with htx
    set rx := crc_chunk_rx bus k tx with hrx
    by_cases hecho : rx.getD (w + if i = 0 then 1 else 0) 0 ≠
        tx.getD (w + if i = 0 then 1 else 0) 0
    · rw [if_pos hecho] at hc
      dsimp only at hc
      rw [List.mem_singleton] at hc
      subst hc
      exact crc_chunk_tx_write instr i addr data
    · rw [if_neg hecho] at hc
      by_cases hloop : i + w < len
      · rw [if_pos hloop] at hc
        dsimp only at hc
        rcases List.mem_cons.mp hc with rfl | hc
        · exact crc_chunk_tx_write instr i addr data
        · exact ih (len - (i + w)) (by omega) (k + 1) (i + w) _ data rfl c hc
      · rw [if_neg hloop] at hc
        dsimp only at hc
        rw [List.mem_singleton] at hc
        subst hc
        exact crc_chunk_tx_write instr i addr data

/-- C4: in a CRC-framed transfer, every chunk that carries payload (all
chunks of a write) transmits as its trailing byte the CRC-8 of its data
bytes, seeded for the chunk at offset 0 with crc8 over the instruction
byte alone (seed 0xA5, polynomial 0x07), and for every later chunk with
that chunk's raw address byte, with no further hashing. -/
theorem C4_crc_chunk_keying (bus : Nat → List Nat → List Nat)
    (cfg : ad3552_transfer_config) (start_addr len instr : Nat)
    (data : List Nat) :
    ∀ c ∈ (_ad3552r_transfer_with_crc bus cfg start_addr false data len
      instr).chunks,
      c.tx = (if c.i = 0 then [instr] else []) ++
        (data.drop c.i).take (_ad3552r_reg_len c.addr) ++
        [crc8 ((data.drop c.i).take (_ad3552r_reg_len c.addr))
          (if c.i = 0 then crc8 [instr] AD3552R_CRC_SEED else c.addr)] :=
  crc_write_go_tx bus cfg start_addr len instr (len - 0) 0 0 0 data rfl

/-- Witness for C4 on a one-chunk write of byte 0x55 to register 0x01. -/
theorem C4_crc_chunk_keying_witness :
    ((_ad3552r_transfer_with_crc (fun _ tx => tx) ⟨1, 0, 0, 0⟩ 1 false
        [0x55] 1 1).chunks.getD 0 ⟨0, 0, [], []⟩).tx =
      [1, 0x55, crc8 [0x55] (crc8 [1] AD3552R_CRC_SEED)] := by
  have h := C4_crc_chunk_keying (fun _ tx => tx) ⟨1, 0, 0, 0⟩ 1 1 1 [0x55]
    ((_ad3552r_transfer_with_crc (fun _ tx => tx) ⟨1, 0, 0, 0⟩ 1 false
        [0x55] 1 1).chunks.getD 0 ⟨0, 0, [], []⟩)
    (by unfold _ad3552r_transfer_with_crc _ad3552r_transfer_with_crc_go
        decide)
  rw [h]
  unfold _ad3552r_transfer_with_crc _ad3552r_transfer_with_crc_go
  decide
theorem int_neg_tmod (a b : Int) : Int.tmod (-a) b = -Int.tmod a b := by
  rw [Int.tmod_def, Int.tmod_def, Int.neg_tdiv]
  ring

theorem crc_chunk_rx_echo (k : Nat) (tx : List Nat) :
    crc_chunk_rx (fun _ tx => tx) k tx = tx := by
  unfold crc_chunk_rx
  exact List.take_left tx _

theorem crc_chunk_addr_formula (cfg : ad3552_transfer_config)
    (start_addr w m k : Nat) (hw : 0 < w) (hm : 0 < m)
    (hL : cfg.stream_mode_length = m * w ∨
          (cfg.stream_mode_length = 0 ∧ k < m))
    (hasc_bound : cfg.addr_asc ≠ 0 →
      start_addr + k % m * w < AD3552R_REG_ADDR_MAX)
    (hdesc_bound : cfg.addr_asc = 0 →
      k % m * w ≤ start_addr ∧ start_addr < AD3552R_REG_ADDR_MAX) :
    crc_chunk_addr cfg start_addr
        ((if cfg.addr_asc ≠ 0 then 1 else -1) * ((k * w : Nat) : Int)) =
      if cfg.addr_asc ≠ 0 then start_addr + k % m * w
      else start_addr - k % m * w := by
  have hmod : (k * w) % (m * w) = k % m * w := Nat.mul_mod_mul_right w k m
  have hmax : AD3552R_REG_ADDR_MAX = 0x4C := rfl
  unfold crc_chunk_addr
  by_cases ha : cfg.addr_asc ≠ 0
  · rw [if_pos ha, if_pos ha, one_mul]
    have hbound := hasc_bound ha
    have key : (if cfg.stream_mode_length ≠ 0 then
        (start_addr : Int) + Int.tmod ((k * w : Nat) : Int)
          (cfg.stream_mode_length : Int)
      else (start_addr : Int) + ((k * w : Nat) : Int)) =
        ((start_addr + k % m * w : Nat) : Int) := by
      rcases hL with hL | ⟨hL0, hkm⟩
      · rw [hL, if_pos (by positivity)]
        rw [Int.tmod_eq_emod (Int.natCast_nonneg _) (Int.natCast_nonneg _)]
        rw [← Int.natCast_mod, hmod]
        push_cast
        ring
      · rw [hL0, if_neg (by simp)]
        rw [Nat.mod_eq_of_lt hkm]
        push_cast
        ring
    rw [key]
    dsimp only
    rw [Int.emod_eq_of_lt (Int.natCast_nonneg _)
      (by exact_mod_cast by omega : ((start_addr + k % m * w : Nat) : Int) < 256)]
    rw [Int.toNat_ofNat]
    exact Nat.mod_eq_of_lt (by omega)
  · rw [if_neg ha, if_neg ha, neg_one_mul]
    have ha0 : cfg.addr_asc = 0 := not_ne_iff.mp ha
    obtain ⟨hle, hlt⟩ := hdesc_bound ha0
    have key : (if cfg.stream_mode_length ≠ 0 then
        (start_addr : Int) + Int.tmod (-((k * w : Nat) : Int))
          (cfg.stream_mode_length : Int)
      else (start_addr : Int) + -((k * w : Nat) : Int)) =
        ((start_addr - k % m * w : Nat) : Int) := by
      rcases hL with hL | ⟨hL0, hkm⟩
      · rw [hL, if_pos (by positivity), int_neg_tmod]
        rw [Int.tmod_eq_emod (Int.natCast_nonneg _) (Int.natCast_nonneg _)]
        rw [← Int.natCast_mod, hmod]
        rw [Nat.cast_sub hle]
        ring
      · rw [hL0, if_neg (by simp)]
        rw [Nat.mod_eq_of_lt hkm] at hle ⊢
        rw [Nat.cast_sub hle]
        ring
    rw [key]
    dsimp only
    rw [Int.emod_eq_of_lt (Int.natCast_nonneg _)
      (by exact_mod_cast by omega : ((start_addr - k % m * w : Nat) : Int) < 256)]
    rw [Int.toNat_ofNat]
    exact Nat.mod_eq_of_lt (by omega)
theorem crc_stream_go_addrs (cfg : ad3552_transfer_config)
    (start_addr w m M len instr : Nat)
    (hw : 0 < w) (hm : 0 < m) (hlen : len = M * w)
    (hL : cfg.stream_mode_length = m * w ∨
          (cfg.stream_mode_length = 0 ∧ M ≤ m))
    (haddr : ∀ j, j < m →
      (cfg.addr_asc ≠ 0 →
        start_addr + j * w < AD3552R_REG_ADDR_MAX ∧
        _ad3552r_reg_len (start_addr + j * w) = w) ∧
      (cfg.addr_asc = 0 →
        j * w ≤ start_addr ∧ start_addr < AD3552R_REG_ADDR_MAX ∧
        _ad3552r_reg_len (start_addr - j * w) = w)) :
    ∀ K k data, M - k = K → k < M →
      ((_ad3552r_transfer_with_crc_go (fun _ tx => tx) cfg start_addr false
          len instr k (k * w)
          ((if cfg.addr_asc ≠ 0 then 1 else -1) * ((k * w : Nat) : Int))
          data).chunks.length = M - k) ∧
      (∀ t, t < M - k →
        ((_ad3552r_transfer_with_crc_go (fun _ tx => tx) cfg start_addr false
          len instr k (k * w)
          ((if cfg.addr_asc ≠ 0 then 1 else -1) * ((k * w : Nat) : Int))
          data).chunks.getD t ⟨0, 0, [], []⟩).addr =
          (if cfg.addr_asc ≠ 0
            then start_addr + (k + t) % m * w
            else start_addr - (k + t) % m * w)) := by
  intro K
  induction K using Nat.strong_induction_on with
  | _ K ih =>
    intro k data hK hkM
    have hkm : k % m < m := Nat.mod_lt _ hm
    have haddr_eq := crc_chunk_addr_formula cfg start_addr w m k hw hm
      (by rcases hL with h | ⟨h0, hMm⟩
          · exact Or.inl h
          · exact Or.inr ⟨h0, by omega⟩)
      (fun ha => ((haddr (k % m) hkm).1 ha).1)
      (fun ha => ⟨((haddr (k % m) hkm).2 ha).1, ((haddr (k % m) hkm).2 ha).2.1⟩)
    have hreg : _ad3552r_reg_len (if cfg.addr_asc ≠ 0
        then start_addr + k % m * w else start_addr - k % m * w) = w := by
      by_cases ha : cfg.addr_asc ≠ 0
      · rw [if_pos ha]
        exact ((haddr (k % m) hkm).1 ha).2
      · rw [if_neg ha]
        exact ((haddr (k % m) hkm).2 (not_ne_iff.mp ha)).2.2
    rw [_ad3552r_transfer_with_crc_go]
    dsimp only
    rw [if_neg (by simp : ¬(false = true))]
    rw [haddr_eq, hreg, crc_chunk_rx_echo]
    rw [if_neg (by simp)]
    by_cases hloop : k * w + w < len
    · rw [if_pos hloop]
      have hk1M : k + 1 < M := by
        rw [hlen] at hloop
        by_contra hcon
        push_neg at hcon
        have h1 : M * w ≤ (k + 1) * w := Nat.mul_le_mul_right w hcon
        have h2 : (k + 1) * w = k * w + w := by ring
        omega
      have e1 : k * w + w = (k + 1) * w := by ring
      have e2 : (if cfg.addr_asc ≠ 0 then (1 : Int) else -1) * ((k * w : Nat) : Int)
          + (if cfg.addr_asc ≠ 0 then (1 : Int) else -1) * (w : Int) =
          (if cfg.addr_asc ≠ 0 then (1 : Int) else -1) * (((k + 1) * w : Nat) : Int) := by
        push_cast
        ring
      rw [e1, e2]
      obtain ⟨ihL, ihA⟩ := ih (M - (k + 1)) (by omega) (k + 1) data rfl hk1M
      dsimp only
      constructor
      · rw [List.length_cons, ihL]
        omega
      · intro t ht
        cases t with
        | zero =>
          rw [List.getD_cons_zero]
          have : k + 0 = k := by omega
          rw [this]
        | succ t' =>
          rw [List.getD_cons_succ]
          have e3 : k + (t' + 1) = (k + 1) + t' := by omega
          rw [e3]
          exact ihA t' (by omega)
    · rw [if_neg hloop]
      have hM1 : M = k + 1 := by
        rw [hlen] at hloop
        push_neg at hloop
        have h2 : (k + 1) * w = k * w + w := by ring
        have h4 : M * w ≤ (k + 1) * w := by omega
        have h5 : M ≤ k + 1 := Nat.le_of_mul_le_mul_right h4 hw
        omega
      dsimp only
      constructor
      · simp [hM1]
      · intro t ht
        have ht0 : t = 0 := by omega
        subst ht0
        rw [List.getD_cons_zero]
        have : k + 0 = k := by omega
        rw [this]

/-- C3 (amended): for a CRC-framed write whose M chunks all have width w
and whose visited addresses stay inside the register space, the address of
chunk t equals start + sign * ((t mod m) * w) where m is the configured
stream length IN BYTES divided by the chunk width (the byte offset, not
the chunk index, wraps within the stream length), with sign +1 when
address ascension is enabled and -1 otherwise; without a stream length the
offset is sign times the accumulated chunk widths, t * w. -/
theorem C3_stream_addresses (asc : Bool) (start_addr w m M len instr si kv : Nat)
    (data : List Nat)
    (hw : 0 < w) (hm : 0 < m) (hM : 0 < M) (hlen : len = M * w)
    (haddr : ∀ j, j < max m M →
      (asc = true → start_addr + j * w < AD3552R_REG_ADDR_MAX ∧
        _ad3552r_reg_len (start_addr + j * w) = w) ∧
      (asc = false → j * w ≤ start_addr ∧ start_addr < AD3552R_REG_ADDR_MAX ∧
        _ad3552r_reg_len (start_addr - j * w) = w)) :
    (∀ t, t < M →
      ((_ad3552r_transfer_with_crc (fun _ tx => tx)
          ⟨if asc then 1 else 0, si, m * w, kv⟩ start_addr false data len
          instr).chunks.getD t ⟨0, 0, [], []⟩).addr =
        if asc then start_addr + t % m * w else start_addr - t % m * w) ∧
    (∀ t, t < M →
      ((_ad3552r_transfer_with_crc (fun _ tx => tx)
          ⟨if asc then 1 else 0, si, 0, kv⟩ start_addr false data len
          instr).chunks.getD t ⟨0, 0, [], []⟩).addr =
        if asc then start_addr + t * w else start_addr - t * w) := by
  cases asc with
  | false =>
    constructor
    · intro t ht
      have H := crc_stream_go_addrs ⟨0, si, m * w, kv⟩ start_addr w m M len
        instr hw hm hlen (Or.inl rfl)
        (fun j hj => ⟨fun hcontra => absurd hcontra (by simp),
          fun _ => (haddr j (lt_of_lt_of_le hj (le_max_left _ _))).2 rfl⟩)
        (M - 0) 0 data rfl hM
      simp only [Nat.zero_mul, Nat.cast_zero, mul_zero] at H
      unfold _ad3552r_transfer_with_crc
      simpa using H.2 t (by omega)
    · intro t ht
      have H := crc_stream_go_addrs ⟨0, si, 0, kv⟩ start_addr w M M len
        instr hw hM hlen (Or.inr ⟨rfl, le_refl M⟩)
        (fun j hj => ⟨fun hcontra => absurd hcontra (by simp),
          fun _ => (haddr j (lt_of_lt_of_le hj (le_max_right _ _))).2 rfl⟩)
        (M - 0) 0 data rfl hM
      simp only [Nat.zero_mul, Nat.cast_zero, mul_zero] at H
      unfold _ad3552r_transfer_with_crc
      have H2 := H.2 t (by omega)
      simp only [Nat.zero_add] at H2
      rw [Nat.mod_eq_of_lt ht] at H2
      simpa using H2
  | true =>
    constructor
    · intro t ht
      have H := crc_stream_go_addrs ⟨1, si, m * w, kv⟩ start_addr w m M len
        instr hw hm hlen (Or.inl rfl)
        (fun j hj => ⟨fun _ => (haddr j (lt_of_lt_of_le hj (le_max_left _ _))).1 rfl,
          fun hcontra => absurd hcontra (by simp)⟩)
        (M - 0) 0 data rfl hM
      simp only [Nat.zero_mul, Nat.cast_zero, mul_zero] at H
      unfold _ad3552r_transfer_with_crc
      simpa using H.2 t (by omega)
    · intro t ht
      have H := crc_stream_go_addrs ⟨1, si, 0, kv⟩ start_addr w M M len
        instr hw hM hlen (Or.inr ⟨rfl, le_refl M⟩)
        (fun j hj => ⟨fun _ => (haddr j (lt_of_lt_of_le hj (le_max_right _ _))).1 rfl,
          fun hcontra => absurd hcontra (by simp)⟩)
        (M - 0) 0 data rfl hM
      simp only [Nat.zero_mul, Nat.cast_zero, mul_zero] at H
      unfold _ad3552r_transfer_with_crc
      have H2 := H.2 t (by omega)
      simp only [Nat.zero_add] at H2
      rw [Nat.mod_eq_of_lt ht] at H2
      simpa using H2

/-- C3 counterexample: ascending CRC transfer from register 0x29 (width 2)
with configured stream length 3: the third chunk (index 2) is addressed at
0x2A = 0x29 + ((2 * 2) mod 3), whereas the claim's formula start +
(chunkIndex mod L) * chunkWidth predicts 0x29 + (2 mod 3) * 2 = 0x2D. -/
theorem C3_counterexample :
    ((_ad3552r_transfer_with_crc (fun _ tx => tx) ⟨1, 0, 3, 0⟩ 0x29 false
        [0, 0, 0, 0, 0, 0] 6 0x29).chunks.getD 2 ⟨0, 0, [], []⟩).addr =
      0x2A ∧
    (0x29 + 2 % 3 * 2) % AD3552R_REG_ADDR_MAX = 0x2D ∧
    (0x2A : Nat) ≠ 0x2D := by
  unfold _ad3552r_transfer_with_crc _ad3552r_transfer_with_crc_go
  unfold _ad3552r_transfer_with_crc_go
  unfold _ad3552r_transfer_with_crc_go
  exact ⟨by decide, by decide, by decide⟩

/-- Witness for C3 on an ascending stream of four 3-byte chunks wrapping
within three register slots starting at 0x38. -/
theorem C3_stream_addresses_witness :
    ((_ad3552r_transfer_with_crc (fun _ tx => tx) ⟨1, 0, 9, 0⟩ 0x38 false
        (List.replicate 12 0) 12 0x38).chunks.getD 3 ⟨0, 0, [], []⟩).addr =
      0x38 := by
  have H := (C3_stream_addresses true 0x38 3 3 4 12 0x38 0 0
    (List.replicate 12 0) (by decide) (by decide) (by decide) rfl
    (by decide)).1 3 (by decide)
  simpa using H

/-- Witness for C1 on a concrete corrupted single-chunk read. -/
theorem C1_crc_read_integrity_witness :
    (_ad3552r_transfer_with_crc (fun _ _ => [0, 0xAB, 0]) ⟨1, 0, 0, 0⟩ 1 true
        [0] 1 (ad3552r_transfer_instr 1 true)).err = 0 ∨
    (_ad3552r_transfer_with_crc (fun _ _ => [0, 0xAB, 0]) ⟨1, 0, 0, 0⟩ 1 true
        [0] 1 (ad3552r_transfer_instr 1 true)).err = -EBADMSG :=
  (C1_crc_read_integrity (fun _ _ => [0, 0xAB, 0]) ⟨1, 0, 0, 0⟩ 1 1
    (ad3552r_transfer_instr 1 true) [0]).1

/-- Witness for C7 at a concrete cache and request differing in one field. -/
theorem C7_update_spi_cfg_spec_witness :
    (_update_spi_cfg (fun _ _ => -5) ⟨0, 0, 0, 1⟩ ⟨1, 0, 0, 1⟩).cache =
      ⟨1, 0, 0, 1⟩ :=
  (C7_update_spi_cfg_spec (fun _ _ => -5) ⟨0, 0, 0, 1⟩ ⟨1, 0, 0, 1⟩).1

/-- Witness for C10 at concrete differing fast_en flags. -/
theorem C10_write_samples_guard_witness :
    ad3552r_write_samples true false false [1, 2] 1 AD3552R_MASK_ALL_CH
        ad3552r_write_mode.AD3552R_WRITE_INPUT_REGS ≠
      Except.error (-EINVAL) :=
  (C10_write_samples_guard_self_compare true false false [1, 2] 1
    ad3552r_write_mode.AD3552R_WRITE_INPUT_REGS).1
